import Mathlib

/-!
# Verification of the CAN decode-and-normalize pipeline with timestamp reconciliation

Shallow embedding of the ingestion core of `car-to-influx/listener.py`
(authoritative variant: `installer/car-to-influx/listener.py`): the frame
normalizer `_bytes_from_field`, the timestamp reconciler `_ts_to_datetime`
with its module-level anchor state, the cached message lookup
`_get_cached_message` / `_cleanup_caches_if_needed`, and the `/can`
ingestion loop `ingest_can`.

Python floats are modelled as exact rationals (`ℚ`); UTC instants are
modelled as rational seconds since the Unix epoch; `datetime.now()` is an
explicit parameter threaded through each call.
-/

namespace DaqServer

/-! ## Timestamp reconciler (`_ts_to_datetime`)

The module-level state of `listener.py`:
`_first_relative`, `_relative_anchor_ts`, `_relative_anchor_real`,
`_last_raw_ts`.  `_reset_threshold = timedelta(seconds=60)`. -/

structure AnchorState where
  firstRelative : Bool
  relativeAnchorTs : ℚ
  relativeAnchorReal : ℚ
  lastRawTs : ℚ
  deriving DecidableEq, Repr

/-- `_reset_threshold.total_seconds()` -/
def resetThreshold : ℚ := 60

/-- Module-load initial state: `_first_relative = True`,
`_relative_anchor_ts = 0.0`, `_relative_anchor_real = datetime.now(utc)`
(modelled by the parameter `startReal`), `_last_raw_ts = 0.0`. -/
def initAnchorState (startReal : ℚ) : AnchorState :=
  { firstRelative := true
    relativeAnchorTs := 0
    relativeAnchorReal := startReal
    lastRawTs := 0 }

/-- Body of `_ts_to_datetime` after the absolute-timestamp branches, applied
to the already unit-converted relative value `ts` (anchoring, reset
detection, negative-elapsed guard).  `currentTime` is the value of
`datetime.now(timezone.utc)` captured at the top of the relative path.
Returns the produced instant together with the updated global state. -/
def anchorRelative (currentTime : ℚ) (ts : ℚ) (st : AnchorState) :
    ℚ × AnchorState :=
  if st.firstRelative then
    (currentTime,
      { firstRelative := false
        relativeAnchorTs := ts
        relativeAnchorReal := currentTime
        lastRawTs := ts })
  else
    let st1 :=
      if ts < st.lastRawTs ∧ resetThreshold < st.lastRawTs - ts then
        { st with relativeAnchorReal := currentTime, relativeAnchorTs := ts }
      else st
    let st2 := { st1 with lastRawTs := ts }
    let elapsed := ts - st2.relativeAnchorTs
    if elapsed < 0 then
      if resetThreshold / 2 < |elapsed| then
        (currentTime,
          { st2 with relativeAnchorReal := currentTime, relativeAnchorTs := ts })
      else
        (st2.relativeAnchorReal, st2)
    else
      (st2.relativeAnchorReal + elapsed, st2)

/-- `_ts_to_datetime(ts)` of `installer/car-to-influx/listener.py`:
threshold classification into absolute milliseconds / absolute seconds /
relative (with the relative millisecond sub-threshold `1_000_000`),
followed by the anchoring logic for the relative domain. -/
def tsToDatetime (currentTime : ℚ) (ts : ℚ) (st : AnchorState) :
    ℚ × AnchorState :=
  if 978307200000 < ts then
    (ts / 1000, st)
  else if 946684800 < ts then
    (ts, st)
  else
    let tsc := if 1000000 < ts then ts / 1000 else ts
    anchorRelative currentTime tsc st

/-- Feed a sequence of `(now, rawTimestamp)` pairs through the reconciler,
collecting the produced instants. -/
def runRecon (st : AnchorState) : List (ℚ × ℚ) → List ℚ
  | [] => []
  | (now, ts) :: rest =>
    let r := tsToDatetime now ts st
    r.1 :: runRecon r.2 rest

/-! ## Frame normalizer (`_bytes_from_field`)

The `data` field of an incoming frame is a list of integers, a
whitespace-separated token string, or absent (`None` in Python, the
`null` constructor here); any other shape raises `ValueError` in the
source, which the ingestion loop catches as a frame error.  Python string
tokens are modelled as their character lists. -/

inductive DataField where
  | intList (xs : List Int)
  | str (s : String)
  | null
  deriving DecidableEq, Repr

/-- `int(b) & 0xFF`: Python's bitwise and of an arbitrary integer with
`0xFF` equals the nonnegative remainder modulo 256. -/
def maskByte (b : Int) : Nat := (b.emod 256).toNat

/-- Value of one character as a digit in `base`, as accepted by Python's
`int(token, base)` (decimal digits, then letters case-insensitively),
or `none` when the character is not a digit of that base. -/
def digitVal (base : Nat) (c : Char) : Option Nat :=
  let v : Nat :=
    if '0' ≤ c ∧ c ≤ '9' then c.toNat - 48
    else if 'a' ≤ c ∧ c ≤ 'z' then c.toNat - 87
    else if 'A' ≤ c ∧ c ≤ 'Z' then c.toNat - 55
    else 1000
  if v < base then some v else none

def digitsValAux (base : Nat) (acc : Nat) : List Char → Option Nat
  | [] => some acc
  | c :: cs =>
    match digitVal base c with
    | some d => digitsValAux base (acc * base + d) cs
    | none => none

/-- Value of a nonempty digit string in `base`; `none` on an empty string
or a bad digit (Python `int` raises `ValueError` there). -/
def digitsVal (base : Nat) : List Char → Option Nat
  | [] => none
  | c :: cs => digitsValAux base 0 (c :: cs)

/-- `b.lower().startswith("0x")` for a token `b`. -/
def startsWith0x : List Char → Bool
  | '0' :: c :: _ => c = 'x' ∨ c = 'X'
  | _ => false

/-- `int(b, 16 if b.lower().startswith("0x") else 10)` for one token `b`:
hex tokens carry a literal `0x`/`0X` prefix; decimal tokens allow a sign.
(A signed hex token such as `-0x1A` does not start with `0x`, is parsed
in base 10 and therefore fails, exactly as in the source.) -/
def parseToken (cs : List Char) : Option Int :=
  if startsWith0x cs then
    match cs with
    | _ :: _ :: ds => (digitsVal 16 ds).map fun n => (n : Int)
    | _ => none
  else
    match cs with
    | '-' :: ds => (digitsVal 10 ds).map fun n => -(n : Int)
    | '+' :: ds => (digitsVal 10 ds).map fun n => (n : Int)
    | ds => (digitsVal 10 ds).map fun n => (n : Int)

/-- Python `str.split()` with no separator: split on runs of whitespace,
dropping empty tokens. -/
def splitWsAux : List Char → List Char → List (List Char)
  | [], acc => if acc = [] then [] else [acc.reverse]
  | c :: cs, acc =>
    if c.isWhitespace then
      if acc = [] then splitWsAux cs [] else acc.reverse :: splitWsAux cs []
    else splitWsAux cs (c :: acc)

def splitTokens (s : String) : List (List Char) := splitWsAux s.toList []

/-- Parse every token of a split data string; the first failing token
fails the whole field, as the exception inside Python's `bytes(...)`
generator does. -/
def parseTokens : List (List Char) → Option (List Int)
  | [] => some []
  | t :: ts =>
    match parseToken t, parseTokens ts with
    | some v, some vs => some (v :: vs)
    | _, _ => none

/-- `_bytes_from_field(data_field)`: lists are masked elementwise; strings
are split on whitespace and each token parsed per its prefix then masked;
`None` yields the empty payload.  `none` models the `ValueError` raised
for an unparsable token, caught by `ingest_can` as a frame error. -/
def bytesFromField : DataField → Option (List Nat)
  | .intList xs => some (xs.map maskByte)
  | .str s => (parseTokens (splitTokens s)).map fun vs => vs.map maskByte
  | .null => some []

/-! ## Signal dictionary and decoder

The DBC dictionary itself is the external `cantools` database; the
listener consumes it through `db.get_message_by_frame_id`,
`msg.get_signal_by_name` and `msg.decode`.  A dictionary is modelled as a
partial map from CAN ids to `Message` descriptors. -/

structure Signal where
  name : String
  startBit : Nat
  bitLength : Nat
  scale : ℚ
  offset : ℚ
  unit : Option String
  deriving DecidableEq, Repr

structure Message where
  name : String
  length : Nat
  signals : List Signal
  deriving DecidableEq, Repr

/-- A payload as an unsigned little-endian integer (byte 0 least
significant). -/
def natOfBytes : List Nat → Nat
  | [] => 0
  | b :: rest => b + 256 * natOfBytes rest

/-- The raw unsigned bit-field of width `bitLength` starting at `startBit`
within a payload. -/
def extractBits (payload : List Nat) (startBit bitLength : Nat) : Nat :=
  natOfBytes payload / 2 ^ startBit % 2 ^ bitLength

/-- Modelled from the spec: the decoder invoked by the listener as
`msg.decode(data, allow_truncated=True, decode_choices=True)` lives in the
external `cantools` library, which is not part of this repository.  Per
the spec (§4.4), decoding extracts each signal's raw bit-field and applies
`physical = raw * scale + offset`; with a payload shorter than the
message's declared byte length it yields readings for the signals that fit
within the supplied bytes, treating the missing trailing bytes as zero,
rather than failing the whole frame.  Enumerated-label handling
(`decode_choices`) is not modelled; readings are numeric. -/
def decodeTruncated (msg : Message) (payload : List Nat) : List (String × ℚ) :=
  (msg.signals.filter fun s => s.startBit + s.bitLength ≤ 8 * payload.length).map
    fun s => (s.name, (extractBits payload s.startBit s.bitLength : ℚ) * s.scale + s.offset)

/-! ## Lookup caches and the ingestion loop (`ingest_can`)

Module-level caches of `listener.py`: `message_cache`,
`can_id_hex_cache`, `signal_definition_cache`, with the periodic
full-clear `_cleanup_caches_if_needed`. -/

structure Caches where
  messageCache : List (Int × Option Message)
  canIdHexCache : List (Int × String)
  signalDefinitionCache : List ((String × String) × Signal)
  deriving DecidableEq, Repr

def initCaches : Caches :=
  { messageCache := [], canIdHexCache := [], signalDefinitionCache := [] }

/-- `_get_cached_message(can_id)`: a cache hit (including a cached
negative result) is returned as is; on a miss the dictionary is consulted
and the result — the message, or `None` on `KeyError` — is stored. -/
def getCachedMessage (db : Int → Option Message)
    (cache : List (Int × Option Message)) (canId : Int) :
    Option Message × List (Int × Option Message) :=
  match cache.lookup canId with
  | some v => (v, cache)
  | none =>
    match db canId with
    | some m => (some m, (canId, some m) :: cache)
    | none => (none, (canId, none) :: cache)

/-- `format(can_id, "#04x")`: `0x`-prefixed lowercase hex, zero-padded to
at least two digits. -/
def formatHexId (canId : Int) : String :=
  if canId < 0 then
    "-0x" ++ String.mk (Nat.toDigits 16 canId.natAbs)
  else
    let ds := Nat.toDigits 16 canId.toNat
    "0x" ++ String.mk (List.replicate (2 - ds.length) '0' ++ ds)

/-- `_get_cached_hex_id(can_id)`. -/
def getCachedHexId (cache : List (Int × String)) (canId : Int) :
    String × List (Int × String) :=
  match cache.lookup canId with
  | some h => (h, cache)
  | none => (formatHexId canId, (canId, formatHexId canId) :: cache)

/-- `_cleanup_caches_if_needed()`: each cache is cleared in full once it
exceeds its size limit (1000 entries for the message and hex-id caches,
5000 for the signal-definition cache). -/
def cleanupCachesIfNeeded (c : Caches) : Caches :=
  { messageCache := if 1000 < c.messageCache.length then [] else c.messageCache
    canIdHexCache := if 1000 < c.canIdHexCache.length then [] else c.canIdHexCache
    signalDefinitionCache :=
      if 5000 < c.signalDefinitionCache.length then [] else c.signalDefinitionCache }

/-- The `id` field of an incoming frame: a JSON integer, or a string
parsed by `int(raw, 0)`. -/
inductive CanIdField where
  | int (i : Int)
  | str (s : String)
  deriving DecidableEq, Repr

/-- Digits of a Python base-0 integer literal after the optional sign:
`0x`/`0b`/`0o` prefixes select the base; a bare decimal number may not
have leading zeros unless it is all zeros. -/
def parseBase0Digits : List Char → Option Nat
  | '0' :: c :: ds =>
    if c = 'x' ∨ c = 'X' then digitsVal 16 ds
    else if c = 'b' ∨ c = 'B' then digitsVal 2 ds
    else if c = 'o' ∨ c = 'O' then digitsVal 8 ds
    else if (c :: ds).all fun d => d = '0' then some 0
    else none
  | ds => digitsVal 10 ds

/-- `int(s, 0)` for a string CAN id. -/
def parseCanIdStr (s : String) : Option Int :=
  match s.toList with
  | '-' :: ds => (parseBase0Digits ds).map fun n => -(n : Int)
  | '+' :: ds => (parseBase0Digits ds).map fun n => (n : Int)
  | ds => (parseBase0Digits ds).map fun n => (n : Int)

/-- `int(can_id_raw, 0) if isinstance(can_id_raw, str) else int(can_id_raw)`;
`none` models the `ValueError` counted as a frame error. -/
def parseCanId : CanIdField → Option Int
  | .int i => some i
  | .str s => parseCanIdStr s

/-- One record of the posted `messages` list.  `frame.get(...)` returning
`None` for a missing key is the `Option.none` / `DataField.null` case. -/
structure Frame where
  id : Option CanIdField
  data : DataField
  timestamp : Option ℚ
  deriving DecidableEq, Repr

/-- One InfluxDB point as assembled in the decode loop (`Point("canBus")
.tag(...).field(...)`).  The `signalLabel` string field is not modelled
since enumerated decoding is outside the numeric decoder model. -/
structure Point where
  messageName : String
  signalName : String
  canIdHex : String
  sensorReading : ℚ
  unit : String
  time : ℚ
  deriving DecidableEq, Repr

/-- `msg.get_signal_by_name(name)`; `none` models the exception caught to
skip just that signal. -/
def getSignalByName (msg : Message) (sigName : String) : Option Signal :=
  msg.signals.find? fun s => s.name = sigName

/-- The per-signal loop over `decoded_signals.items()`: look the signal
definition up through `signal_definition_cache`, defaulting the unit to
`"N/A"`, and build one point per resolved signal.  Returns the points in
order together with the updated signal cache. -/
def buildPoints (msg : Message) (canIdHex : String) (tsDt : ℚ) :
    List (String × ℚ) → List ((String × String) × Signal) →
    List Point × List ((String × String) × Signal)
  | [], sc => ([], sc)
  | (sigName, val) :: rest, sc =>
    let r :=
      match sc.lookup (msg.name, sigName) with
      | some d => (some d, sc)
      | none =>
        match getSignalByName msg sigName with
        | some d => (some d, ((msg.name, sigName), d) :: sc)
        | none => (none, sc)
    match r.1 with
    | none => buildPoints msg canIdHex tsDt rest r.2
    | some d =>
      let p : Point :=
        { messageName := msg.name
          signalName := d.name
          canIdHex := canIdHex
          sensorReading := val
          unit := d.unit.getD "N/A"
          time := tsDt }
      let rr := buildPoints msg canIdHex tsDt rest r.2
      (p :: rr.1, rr.2)

/-- One iteration of the frame loop in `ingest_can`: parse the basic
fields (`id`, `data`, `timestamp`), convert the timestamp (which mutates
the reconciler state even when the message later turns out unknown), look
the message up through the cache, decode, and build points.  Returns
`(points, frameErrorIncrement, reconcilerState, caches)`.  A missing or
malformed basic field counts one frame error; an unknown CAN id skips the
frame without counting an error. -/
def processFrame (db : Int → Option Message) (now : ℚ) (st : AnchorState)
    (cs : Caches) (f : Frame) : List Point × Nat × AnchorState × Caches :=
  match f.id with
  | none => ([], 1, st, cs)
  | some idRaw =>
    match parseCanId idRaw with
    | none => ([], 1, st, cs)
    | some canId =>
      match bytesFromField f.data with
      | none => ([], 1, st, cs)
      | some data =>
        match f.timestamp with
        | none => ([], 1, st, cs)
        | some tsRaw =>
          let r := tsToDatetime now tsRaw st
          let m := getCachedMessage db cs.messageCache canId
          let cs1 := { cs with messageCache := m.2 }
          match m.1 with
          | none => ([], 0, r.2, cs1)
          | some msg =>
            let decoded := decodeTruncated msg data
            let h := getCachedHexId cs1.canIdHexCache canId
            let cs2 := { cs1 with canIdHexCache := h.2 }
            let bp := buildPoints msg h.1 r.1 decoded cs2.signalDefinitionCache
            (bp.1, 0, r.2, { cs2 with signalDefinitionCache := bp.2 })

/-- The frame loop of `ingest_can` over `(now, frame)` pairs, accumulating
points and the `frame_errors` counter. -/
def ingestFrames (db : Int → Option Message) :
    AnchorState → Caches → List (ℚ × Frame) →
    List Point × Nat × AnchorState × Caches
  | st, cs, [] => ([], 0, st, cs)
  | st, cs, (now, f) :: rest =>
    let r := processFrame db now st cs f
    let rr := ingestFrames db r.2.2.1 r.2.2.2 rest
    (r.1 ++ rr.1, r.2.1 + rr.2.1, rr.2.2)

structure IngestSummary where
  receivedFrames : Nat
  writtenPoints : Nat
  frameErrors : Nat
  deriving DecidableEq, Repr

/-- `ingest_can` from the parsed `frames` list onward: the conditional
cache cleanup (`(len(message_cache) + len(can_id_hex_cache)) % 100 == 0`
on a nonempty batch), the frame loop, and the response summary
(`received_frames = len(frames)`, `written_points = len(points)`, with
the internal `frame_errors` counter). -/
def ingestCan (db : Int → Option Message) (st : AnchorState) (cs : Caches)
    (frames : List (ℚ × Frame)) :
    IngestSummary × List Point × AnchorState × Caches :=
  let cs0 :=
    if frames ≠ [] ∧ (cs.messageCache.length + cs.canIdHexCache.length) % 100 = 0
    then cleanupCachesIfNeeded cs
    else cs
  let r := ingestFrames db st cs0 frames
  ({ receivedFrames := frames.length
     writtenPoints := r.1.length
     frameErrors := r.2.1 },
   r.1, r.2.2)

/-- A sequence of `/can` ingestion calls sharing the process state. -/
def runIngestCalls (db : Int → Option Message) :
    AnchorState → Caches → List (List (ℚ × Frame)) → AnchorState × Caches
  | st, cs, [] => (st, cs)
  | st, cs, b :: bs =>
    let r := ingestCan db st cs b
    runIngestCalls db r.2.2.1 r.2.2.2 bs

/-! ## Consistency predicate for the message cache -/

/-- Every entry of the message cache agrees with a fresh dictionary
lookup: a cached `some m` only for ids the dictionary maps to `m`, a
cached `none` only for ids absent from the dictionary. -/
def CacheConsistent (db : Int → Option Message)
    (cache : List (Int × Option Message)) : Prop :=
  ∀ canId v, cache.lookup canId = some v → v = db canId

/-! ## Concrete fixtures used by the closed evaluations -/

def exSignal : Signal :=
  { name := "EngineSpeed", startBit := 0, bitLength := 8,
    scale := 1, offset := 0, unit := some "rpm" }

def exMessage : Message :=
  { name := "Engine", length := 8, signals := [exSignal] }

/-- A dictionary knowing only CAN id `256` (`0x100`). -/
def exDb : Int → Option Message :=
  fun i => if i = 256 then some exMessage else none

def exFrame1 : Frame :=
  { id := some (.int 256), data := .intList [10, 0, 0, 0, 0, 0, 0, 0],
    timestamp := some 1700000000 }

/-- CAN id `999` is absent from `exDb`. -/
def exFrame2 : Frame :=
  { id := some (.int 999), data := .intList [1], timestamp := some 1700000001 }

def exFrame3 : Frame :=
  { id := some (.int 256), data := .intList [20, 0, 0, 0, 0, 0, 0, 0],
    timestamp := some 1700000002 }

def exFrames : List (ℚ × Frame) := [(0, exFrame1), (0, exFrame2), (0, exFrame3)]

def exPoint1 : Point :=
  { messageName := "Engine", signalName := "EngineSpeed", canIdHex := "0x100",
    sensorReading := 10, unit := "rpm", time := 1700000000 }

def exPoint3 : Point :=
  { messageName := "Engine", signalName := "EngineSpeed", canIdHex := "0x100",
    sensorReading := 20, unit := "rpm", time := 1700000002 }

def exCaches1 : Caches :=
  { messageCache := [(256, some exMessage)],
    canIdHexCache := [(256, "0x100")],
    signalDefinitionCache := [(("Engine", "EngineSpeed"), exSignal)] }

def exCaches2 : Caches :=
  { messageCache := [(999, none), (256, some exMessage)],
    canIdHexCache := [(256, "0x100")],
    signalDefinitionCache := [(("Engine", "EngineSpeed"), exSignal)] }

/-- An 8-byte message with one signal inside the first four bytes and one
in the upper four, for the truncation example. -/
def exSignalA : Signal :=
  { name := "A", startBit := 8, bitLength := 8, scale := 1, offset := 0, unit := none }

def exSignalB : Signal :=
  { name := "B", startBit := 32, bitLength := 8, scale := 1, offset := 0, unit := none }

def exWideMessage : Message :=
  { name := "Wide", length := 8, signals := [exSignalA, exSignalB] }

/-! ## Helper lemmas -/

/-- Once anchored, as long as the incoming relative values stay in the
seconds domain (≤ 1 000 000) and never decrease, the reconciler neither
re-anchors nor converts units: every output is the anchor wall time plus
the elapsed device time. -/
theorem runRecon_no_reset (l : List (ℚ × ℚ)) :
    ∀ st : AnchorState, st.firstRelative = false →
    st.relativeAnchorTs ≤ st.lastRawTs →
    List.Chain (· ≤ ·) st.lastRawTs (l.map Prod.snd) →
    (∀ p ∈ l, p.2 ≤ 1000000) →
    runRecon st l =
      l.map fun p => st.relativeAnchorReal + (p.2 - st.relativeAnchorTs) := by
  induction l with
  | nil => intro st _ _ _ _; rfl
  | cons p rest ih =>
    obtain ⟨now, ts⟩ := p
    intro st hf ha hchain hb
    rw [List.map_cons, List.chain_cons] at hchain
    obtain ⟨hle0, hchain0⟩ := hchain
    have hle : st.lastRawTs ≤ ts := hle0
    have hchain' : List.Chain (· ≤ ·) ts (rest.map Prod.snd) := hchain0
    have hts : ts ≤ 1000000 := hb (now, ts) (by simp)
    have h1 : ¬ (978307200000 : ℚ) < ts := by linarith
    have h2 : ¬ (946684800 : ℚ) < ts := by linarith
    have h3 : ¬ (1000000 : ℚ) < ts := by linarith
    have hnr : ¬ (ts < st.lastRawTs ∧ resetThreshold < st.lastRawTs - ts) :=
      fun hc => absurd hc.1 (not_lt.mpr hle)
    have hge : ¬ ts - st.relativeAnchorTs < 0 := not_lt.mpr (by linarith)
    simp only [runRecon, tsToDatetime, if_neg h1, if_neg h2, if_neg h3]
    simp only [anchorRelative, hf, Bool.false_eq_true, if_false, if_neg hnr, if_neg hge]
    rw [List.map_cons]
    refine congrArg₂ _ rfl ?_
    exact ih { firstRelative := false, relativeAnchorTs := st.relativeAnchorTs,
               relativeAnchorReal := st.relativeAnchorReal, lastRawTs := ts }
      rfl (by linarith) (by exact hchain') (fun q hq => hb q (by simp [hq]))

/-- A fresh reconciler fed a non-decreasing seconds-domain relative
sequence anchors on the first frame and then tracks elapsed device time
exactly. -/
theorem runRecon_fresh (startReal n1 t1 : ℚ) (rest : List (ℚ × ℚ))
    (hmono : List.Chain (fun a b : ℚ × ℚ => a.2 ≤ b.2) (n1, t1) rest)
    (hb : ∀ p ∈ (n1, t1) :: rest, p.2 ≤ 1000000) :
    runRecon (initAnchorState startReal) ((n1, t1) :: rest) =
      ((n1, t1) :: rest).map fun p => n1 + (p.2 - t1) := by
  have ht1 : t1 ≤ 1000000 := hb (n1, t1) (by simp)
  have h1 : ¬ (978307200000 : ℚ) < t1 := by linarith
  have h2 : ¬ (946684800 : ℚ) < t1 := by linarith
  have h3 : ¬ (1000000 : ℚ) < t1 := by linarith
  simp only [runRecon, tsToDatetime, if_neg h1, if_neg h2, if_neg h3]
  have hfirst : (initAnchorState startReal).firstRelative = true := rfl
  simp only [anchorRelative, hfirst, if_true]
  rw [List.map_cons]
  refine congrArg₂ _ (by norm_num) ?_
  rw [runRecon_no_reset rest
    { firstRelative := false, relativeAnchorTs := t1,
      relativeAnchorReal := n1, lastRawTs := t1 }
    rfl (le_refl _) (by exact (List.chain_map Prod.snd).mpr hmono)
    (fun q hq => hb q (by simp [hq]))]

theorem getD_map_lt {α β : Type} (f : α → β) :
    ∀ (l : List α) (i : Nat), i < l.length → ∀ (d : α) (e : β),
      (l.map f).getD i e = f (l.getD i d) := by
  intro l
  induction l with
  | nil => intro i hi; simp at hi
  | cons a l ih =>
    intro i hi d e
    cases i with
    | zero => rfl
    | succ j => simpa using ih j (by simpa using hi) d e

theorem natOfBytes_replicate_zero (k : Nat) :
    natOfBytes (List.replicate k 0) = 0 := by
  induction k with
  | zero => rfl
  | succ n ih => simp [List.replicate, natOfBytes, ih]

/-- Appending zero bytes does not change the little-endian value of a
payload. -/
theorem natOfBytes_append_zeros (l : List Nat) (k : Nat) :
    natOfBytes (l ++ List.replicate k 0) = natOfBytes l := by
  induction l with
  | nil => simpa using natOfBytes_replicate_zero k
  | cons b l ih => simp [natOfBytes, ih]

/-- Full evaluation of the three-frame example batch: frame 2's unknown
CAN id is skipped (negative result cached) without incrementing the error
counter, frames 1 and 3 decode to one point each. -/
theorem ingestCan_example_eval :
    ingestCan exDb (initAnchorState 0) initCaches exFrames =
      ({ receivedFrames := 3, writtenPoints := 2, frameErrors := 0 },
       [exPoint1, exPoint3], initAnchorState 0, exCaches2) := by
  have hfmt : formatHexId 256 = "0x100" := by decide
  have hp1 : processFrame exDb 0 (initAnchorState 0) initCaches exFrame1 =
      ([exPoint1], 0, initAnchorState 0, exCaches1) := by
    have hmask : bytesFromField (.intList [10, 0, 0, 0, 0, 0, 0, 0]) =
        some [10, 0, 0, 0, 0, 0, 0, 0] := by decide
    norm_num [processFrame, parseCanId, hmask, tsToDatetime, getCachedMessage,
      getCachedHexId, hfmt, buildPoints, getSignalByName, decodeTruncated,
      extractBits, natOfBytes, exDb, exMessage, exSignal, exFrame1, exPoint1,
      exCaches1, initCaches, initAnchorState]
  have hp2 : processFrame exDb 0 (initAnchorState 0) exCaches1 exFrame2 =
      ([], 0, initAnchorState 0, exCaches2) := by
    have hmask : bytesFromField (.intList [1]) = some [1] := by decide
    have hlk : List.lookup (999 : Int) [((256 : Int), some exMessage)] = none := by simp
    norm_num [processFrame, parseCanId, hmask, tsToDatetime, getCachedMessage,
      hlk, exDb, exFrame2, exCaches1, exCaches2, initAnchorState]
  have hp3 : processFrame exDb 0 (initAnchorState 0) exCaches2 exFrame3 =
      ([exPoint3], 0, initAnchorState 0, exCaches2) := by
    have hmask : bytesFromField (.intList [20, 0, 0, 0, 0, 0, 0, 0]) =
        some [20, 0, 0, 0, 0, 0, 0, 0] := by decide
    have hb : ((256 : Int) == 999) = false := by norm_num
    have hlk : List.lookup (256 : Int) [((999 : Int), (none : Option Message)),
        ((256 : Int), some exMessage)] = some (some exMessage) := by
      simp [List.lookup, hb]
    have hsigs : exMessage.signals = [exSignal] := rfl
    have hname : exMessage.name = "Engine" := rfl
    norm_num [processFrame, parseCanId, hmask, tsToDatetime, getCachedMessage,
      hlk, hsigs, hname, getCachedHexId, buildPoints, getSignalByName, decodeTruncated,
      extractBits, natOfBytes, exSignal, exFrame3, exPoint3,
      exCaches2, initAnchorState]
  have hcl : cleanupCachesIfNeeded initCaches = initCaches := rfl
  simp only [ingestCan, hcl, ite_self, exFrames, ingestFrames, hp1, hp2, hp3]
  rfl

/-! ## Claim theorems -/

/-- C1: `_ts_to_datetime` classifies every raw timestamp by exactly the
three literal thresholds: above `978307200000` it is absolute
milliseconds, divided by 1000 and returned with the anchoring state
untouched; above `946684800` (but not above the first threshold) it is
absolute epoch seconds, returned directly with the state untouched;
otherwise it is relative, divided by 1000 before the anchoring logic
exactly when above `1,000,000`.  In particular `946684801` is absolute
seconds, `946684799` is relative (milliseconds), and `978307200001` is
absolute milliseconds divided by 1000. -/
theorem tsToDatetime_threshold_classification :
    (∀ (currentTime : ℚ) (st : AnchorState) (ts : ℚ),
      tsToDatetime currentTime ts st =
        if 978307200000 < ts then (ts / 1000, st)
        else if 946684800 < ts then (ts, st)
        else if 1000000 < ts then anchorRelative currentTime (ts / 1000) st
        else anchorRelative currentTime ts st) ∧
    tsToDatetime 0 946684801 (initAnchorState 0) = (946684801, initAnchorState 0) ∧
    (∀ (currentTime : ℚ) (st : AnchorState),
      tsToDatetime currentTime 946684799 st =
        anchorRelative currentTime (946684799 / 1000) st) ∧
    tsToDatetime 0 978307200001 (initAnchorState 0) =
      (978307200001 / 1000, initAnchorState 0) := by
  refine ⟨?_, ?_, ?_, ?_⟩
  · intro c st ts
    simp only [tsToDatetime]
    split_ifs <;> rfl
  · norm_num [tsToDatetime]
  · intro c st
    norm_num [tsToDatetime]
  · norm_num [tsToDatetime]

/-- C2: after the first relative timestamp, a unit-converted value that
drops below the previous one by more than the 60-second threshold
re-anchors (`anchorWallTime := now`, `anchorRawValue := value`) before
this frame's output is computed, so the output is `now` itself; on the
raw sequence `[100, 105, 2]` (wall clocks 10, 11, 12) the third output is
the third call's `now` (12), not `anchorWallTime + (2 - 100) = -88`. -/
theorem anchorRelative_reset_reanchors :
    (∀ (currentTime ts : ℚ) (st : AnchorState),
      st.firstRelative = false →
      ts < st.lastRawTs →
      resetThreshold < st.lastRawTs - ts →
      anchorRelative currentTime ts st =
        (currentTime,
          { firstRelative := false, relativeAnchorTs := ts,
            relativeAnchorReal := currentTime, lastRawTs := ts })) ∧
    runRecon (initAnchorState 0) [(10, 100), (11, 105), (12, 2)] = [10, 15, 12] ∧
    (12 : ℚ) ≠ 10 + (2 - 100) := by
  refine ⟨?_, ?_, by norm_num⟩
  · intro c ts st h1 h2 h3
    simp only [anchorRelative, h1, Bool.false_eq_true, if_false]
    rw [if_pos (⟨h2, h3⟩ : ts < st.lastRawTs ∧ resetThreshold < st.lastRawTs - ts)]
    simp [sub_self, h1]
  · norm_num [runRecon, tsToDatetime, anchorRelative, initAnchorState, resetThreshold]

/-- C2 witness: the reset branch evaluated at the third call of the
`[100, 105, 2]` scenario. -/
theorem anchorRelative_reset_reanchors_witness :
    anchorRelative 12 2
      { firstRelative := false, relativeAnchorTs := 100,
        relativeAnchorReal := 10, lastRawTs := 105 } =
      (12, { firstRelative := false, relativeAnchorTs := 2,
             relativeAnchorReal := 12, lastRawTs := 2 }) :=
  anchorRelative_reset_reanchors.1 12 2 _ rfl (by norm_num)
    (by norm_num [resetThreshold])

/-- C3: when the elapsed value `ts - anchorRawValue` is negative after
reset detection (which then necessarily did not fire), the reconciler
returns either `now` or the anchor wall time, never the anchor plus a
negative offset: if `|elapsed|` exceeds half the 60-second threshold it
re-anchors and returns the new anchor wall time, otherwise it returns the
current anchor wall time with the anchor unchanged (only `lastRawValue`
is updated). -/
theorem anchorRelative_negative_elapsed_guard
    (currentTime ts : ℚ) (st : AnchorState)
    (h1 : st.firstRelative = false)
    (h2 : ¬ (ts < st.lastRawTs ∧ resetThreshold < st.lastRawTs - ts))
    (h3 : ts - st.relativeAnchorTs < 0) :
    ((anchorRelative currentTime ts st).1 = currentTime ∨
      (anchorRelative currentTime ts st).1 = st.relativeAnchorReal) ∧
    (resetThreshold / 2 < |ts - st.relativeAnchorTs| →
      anchorRelative currentTime ts st =
        (currentTime,
          { firstRelative := false, relativeAnchorTs := ts,
            relativeAnchorReal := currentTime, lastRawTs := ts })) ∧
    (¬ resetThreshold / 2 < |ts - st.relativeAnchorTs| →
      anchorRelative currentTime ts st =
        (st.relativeAnchorReal, { st with lastRawTs := ts })) := by
  simp only [anchorRelative, h1, Bool.false_eq_true, if_false, if_neg h2]
  rw [if_pos h3]
  by_cases habs : resetThreshold / 2 < |ts - st.relativeAnchorTs|
  · rw [if_pos habs]
    refine ⟨Or.inl rfl, fun _ => ?_, fun hn => absurd habs hn⟩
    simp [h1]
  · rw [if_neg habs]
    exact ⟨Or.inr rfl, fun hy => absurd hy habs, fun _ => rfl⟩

/-- C3 witness: a backwards jump of 50 s (≤ 60 s, so no reset, but beyond
the 30 s half-threshold) re-anchors at `now = 7`. -/
theorem anchorRelative_negative_elapsed_guard_witness :
    (50 : ℚ) - 100 < 0 ∧
    anchorRelative 7 50
      { firstRelative := false, relativeAnchorTs := 100,
        relativeAnchorReal := 3, lastRawTs := 100 } =
      (7, { firstRelative := false, relativeAnchorTs := 50,
            relativeAnchorReal := 7, lastRawTs := 50 }) :=
  ⟨by norm_num,
    (anchorRelative_negative_elapsed_guard 7 50
      { firstRelative := false, relativeAnchorTs := 100,
        relativeAnchorReal := 3, lastRawTs := 100 }
      rfl (by norm_num [resetThreshold]) (by norm_num)).2.1
      (by norm_num [resetThreshold])⟩

/-- C4 counterexample: the raw values `2000000` and `2000030` are both
below the absolute-timestamp thresholds, non-decreasing, and 30 apart
(≤ 60), yet the reconciler treats them as relative milliseconds: the
output spacing is 3/100 of a second, not the raw delta of 30 seconds, so
the claim fails for relative sequences above the `1,000,000`
milliseconds-relative threshold. -/
theorem runRecon_relative_ms_counterexample :
    (2000000 : ℚ) ≤ 946684800 ∧ (2000030 : ℚ) ≤ 946684800 ∧
    (2000000 : ℚ) ≤ 2000030 ∧ (2000030 : ℚ) - 2000000 ≤ 60 ∧
    runRecon (initAnchorState 0) [(0, 2000000), (5, 2000030)] = [0, 3 / 100] ∧
    ((3 : ℚ) / 100 - 0 ≠ 2000030 - 2000000) := by
  refine ⟨by norm_num, by norm_num, by norm_num, by norm_num, ?_, by norm_num⟩
  norm_num [runRecon, tsToDatetime, anchorRelative, initAnchorState, resetThreshold]

/-- C4 (amended): for a monotonically non-decreasing sequence of relative
raw timestamps at most `1,000,000` (the seconds-relative domain) with
consecutive gaps at most 60 seconds, fed in order to a fresh reconciler,
the first output equals the wall clock of the first call, the outputs are
monotonically non-decreasing, and consecutive outputs are spaced exactly
by the raw deltas in seconds. -/
theorem runRecon_monotone_delta_preserving
    (startReal n1 t1 : ℚ) (rest : List (ℚ × ℚ))
    (hmono : List.Chain (fun a b : ℚ × ℚ => a.2 ≤ b.2) (n1, t1) rest)
    (_hgap : List.Chain (fun a b : ℚ × ℚ => b.2 - a.2 ≤ 60) (n1, t1) rest)
    (hb : ∀ p ∈ (n1, t1) :: rest, p.2 ≤ 1000000) :
    (runRecon (initAnchorState startReal) ((n1, t1) :: rest)).getD 0 0 = n1 ∧
    List.Chain' (· ≤ ·) (runRecon (initAnchorState startReal) ((n1, t1) :: rest)) ∧
    ∀ i : Nat, i + 1 < ((n1, t1) :: rest).length →
      (runRecon (initAnchorState startReal) ((n1, t1) :: rest)).getD (i + 1) 0 -
        (runRecon (initAnchorState startReal) ((n1, t1) :: rest)).getD i 0 =
      (((n1, t1) :: rest).getD (i + 1) (0, 0)).2 -
        (((n1, t1) :: rest).getD i (0, 0)).2 := by
  rw [runRecon_fresh startReal n1 t1 rest hmono hb]
  refine ⟨by simp, ?_, ?_⟩
  · rw [List.map_cons]
    show List.Chain (· ≤ ·)
      ((fun p : ℚ × ℚ => n1 + (p.2 - t1)) (n1, t1))
      (List.map (fun p : ℚ × ℚ => n1 + (p.2 - t1)) rest)
    exact (List.chain_map (fun p : ℚ × ℚ => n1 + (p.2 - t1))).mpr
      (hmono.imp fun a b h => by linarith)
  · intro i hi
    have hi1 : i < ((n1, t1) :: rest).length := Nat.lt_of_succ_lt hi
    rw [getD_map_lt _ _ _ hi (0, 0) 0, getD_map_lt _ _ _ hi1 (0, 0) 0]
    ring

/-- C4 witness: the amended statement evaluated on the two-frame sequence
`[(now 0, raw 3), (now 1, raw 5)]`. -/
theorem runRecon_monotone_delta_preserving_witness :
    (runRecon (initAnchorState 0) [(0, 3), (1, 5)]).getD 0 0 = 0 ∧
    List.Chain' (· ≤ ·) (runRecon (initAnchorState 0) [(0, 3), (1, 5)]) ∧
    ∀ i : Nat, i + 1 < ([((0 : ℚ), (3 : ℚ)), (1, 5)]).length →
      (runRecon (initAnchorState 0) [(0, 3), (1, 5)]).getD (i + 1) 0 -
        (runRecon (initAnchorState 0) [(0, 3), (1, 5)]).getD i 0 =
      (([((0 : ℚ), (3 : ℚ)), (1, 5)]).getD (i + 1) (0, 0)).2 -
        (([((0 : ℚ), (3 : ℚ)), (1, 5)]).getD i (0, 0)).2 :=
  runRecon_monotone_delta_preserving 0 0 3 [(1, 5)]
    (by norm_num) (by norm_num) (by norm_num)

/-- C5 counterexample: on a three-frame batch whose second frame has a
CAN id absent from the dictionary and whose other frames decode, the
batch is not aborted and `received_frames = 3`, but the `frame_errors`
counter stays 0 — the unknown-id skip path does not increment it — so
the claimed `frameErrors >= 1` is false. -/
theorem ingestCan_unknownId_frameErrors_counterexample :
    (ingestCan exDb (initAnchorState 0) initCaches exFrames).1.receivedFrames = 3 ∧
    (ingestCan exDb (initAnchorState 0) initCaches exFrames).2.1 = [exPoint1, exPoint3] ∧
    ¬ 1 ≤ (ingestCan exDb (initAnchorState 0) initCaches exFrames).1.frameErrors := by
  norm_num [ingestCan_example_eval]

/-- C5 (amended): a frame whose CAN id is absent from the dictionary is
skipped by itself — it produces no points and does not increment the
frame-error counter (its timestamp still advances the reconciler and the
negative lookup is cached); the call is not aborted, `receivedFrames`
always equals the number of input frames, and on the concrete 3-frame
batch with the 2nd id unknown the summary is `receivedFrames = 3`,
`frameErrors = 0`, with points produced for frames 1 and 3. -/
theorem ingestCan_unknownId_skipped_without_error :
    (∀ (db : Int → Option Message) (now : ℚ) (st : AnchorState) (cs : Caches)
        (f : Frame) (idRaw : CanIdField) (canId : Int) (data : List Nat) (tsRaw : ℚ),
      f.id = some idRaw → parseCanId idRaw = some canId →
      bytesFromField f.data = some data → f.timestamp = some tsRaw →
      (getCachedMessage db cs.messageCache canId).1 = none →
      processFrame db now st cs f =
        ([], 0, (tsToDatetime now tsRaw st).2,
          { cs with messageCache := (getCachedMessage db cs.messageCache canId).2 })) ∧
    (∀ (db : Int → Option Message) (st : AnchorState) (cs : Caches)
        (frames : List (ℚ × Frame)),
      (ingestCan db st cs frames).1.receivedFrames = frames.length) ∧
    ingestCan exDb (initAnchorState 0) initCaches exFrames =
      ({ receivedFrames := 3, writtenPoints := 2, frameErrors := 0 },
       [exPoint1, exPoint3], initAnchorState 0, exCaches2) := by
  refine ⟨?_, fun _ _ _ _ => rfl, ingestCan_example_eval⟩
  intro db now st cs f idRaw canId data tsRaw hid hpc hdata hts hub
  simp only [processFrame, hid, hpc, hdata, hts, hub]

/-- C5 witness: the unknown-id skip evaluated on frame 2 of the example
batch. -/
theorem ingestCan_unknownId_skipped_without_error_witness :
    processFrame exDb 0 (initAnchorState 0) exCaches1 exFrame2 =
      ([], 0, (tsToDatetime 0 1700000001 (initAnchorState 0)).2,
        { exCaches1 with messageCache :=
            (getCachedMessage exDb exCaches1.messageCache 999).2 }) :=
  ingestCan_unknownId_skipped_without_error.1 exDb 0 (initAnchorState 0) exCaches1
    exFrame2 (.int 999) 999 [1] 1700000001 rfl rfl (by decide) rfl
    (by
      have hlk : List.lookup (999 : Int) [((256 : Int), some exMessage)] = none := by simp
      simp [getCachedMessage, exCaches1, exDb, hlk])

/-- C6: decoding a payload shorter than the message's declared byte
length does not fail the frame: it yields readings exactly for the
signals that fit within the supplied bytes, with the same values as if
the missing trailing bytes were zero (for any amount of zero padding);
concretely, the 8-byte message `Wide` supplied only 4 bytes still decodes
the signal in the first 4 bytes. -/
theorem decodeTruncated_payload_tolerance :
    (∀ (msg : Message) (payload : List Nat) (k : Nat),
      decodeTruncated msg payload =
        (msg.signals.filter fun s => s.startBit + s.bitLength ≤ 8 * payload.length).map
          fun s => (s.name,
            (extractBits (payload ++ List.replicate k 0) s.startBit s.bitLength : ℚ) *
              s.scale + s.offset)) ∧
    decodeTruncated exWideMessage [1, 2, 3, 4] = [("A", 2)] ∧
    decodeTruncated exWideMessage [1, 2, 3, 4, 0, 0, 0, 0] = [("A", 2), ("B", 0)] := by
  refine ⟨?_, ?_, ?_⟩
  · intro msg payload k
    simp only [decodeTruncated, extractBits, natOfBytes_append_zeros]
  · norm_num [decodeTruncated, extractBits, natOfBytes, exWideMessage, exSignalA, exSignalB]
  · norm_num [decodeTruncated, extractBits, natOfBytes, exWideMessage, exSignalA, exSignalB]

/-- C7: frame normalization is representation-independent: any string
whose whitespace-separated tokens parse to a list of integers normalizes
to the same bytes as that integer list; in particular `[10, 255, 0]`,
`"10 255 0"` and `"0x0A 0xFF 0x00"` all normalize to `[0x0A, 0xFF, 0x00]`
and an absent payload normalizes to the empty byte sequence. -/
theorem bytesFromField_representation_independent :
    (∀ (s : String) (bs : List Int),
      parseTokens (splitTokens s) = some bs →
      bytesFromField (.str s) = bytesFromField (.intList bs)) ∧
    bytesFromField (.intList [10, 255, 0]) = some [0x0A, 0xFF, 0x00] ∧
    bytesFromField (.str "10 255 0") = some [0x0A, 0xFF, 0x00] ∧
    bytesFromField (.str "0x0A 0xFF 0x00") = some [0x0A, 0xFF, 0x00] ∧
    bytesFromField .null = some [] := by
  refine ⟨?_, by decide, by decide, by decide, by decide⟩
  intro s bs h
  simp [bytesFromField, h]

/-- C7 witness: the representation-independence applied to `"10 255 0"`
and `[10, 255, 0]`. -/
theorem bytesFromField_representation_independent_witness :
    bytesFromField (.str "10 255 0") = bytesFromField (.intList [10, 255, 0]) :=
  bytesFromField_representation_independent.1 "10 255 0" [10, 255, 0] (by decide)

/-- C8: integer byte values are masked to 8 bits (`value & 0xFF`, i.e.
the nonnegative remainder mod 256) rather than rejected: normalizing an
integer list never fails, every produced byte is below 256, and
`[300, -5]` normalizes to `[0x2C, 0xFB]`. -/
theorem bytesFromField_masks_out_of_range :
    (∀ xs : List Int, bytesFromField (.intList xs) = some (xs.map maskByte)) ∧
    (∀ (xs : List Int) (b : Nat), b ∈ xs.map maskByte → b < 256) ∧
    bytesFromField (.intList [300, -5]) = some [0x2C, 0xFB] ∧
    maskByte 300 = 44 ∧ maskByte (-5) = 251 := by
  refine ⟨fun xs => rfl, ?_, by decide, by decide, by decide⟩
  intro xs b hb
  simp only [List.mem_map] at hb
  obtain ⟨a, _, rfl⟩ := hb
  unfold maskByte
  have h1 : a.emod 256 < 256 := Int.emod_lt_of_pos a (by norm_num)
  have h2 : 0 ≤ a.emod 256 := Int.emod_nonneg a (by norm_num)
  omega

/-- C8 witness: the bound applied to the byte produced from `300`. -/
theorem bytesFromField_masks_out_of_range_witness :
    (44 : Nat) ∈ ([300, -5] : List Int).map maskByte ∧ (44 : Nat) < 256 :=
  ⟨by decide, bytesFromField_masks_out_of_range.2.1 [300, -5] 44 (by decide)⟩

/-- C9 counterexample: the reconciler state is one module-global record,
not per-stream: processing a frame from one source mutates the state the
next source reads (the state after stream A's frame `raw 100` differs
from the initial state), and stream B's frame `raw 90` then yields `0`
(the stale anchor) instead of the `7` a fresh per-stream reconciler would
return. -/
theorem reconciler_per_stream_counterexample :
    (tsToDatetime 0 100 (initAnchorState 0)).2 ≠ initAnchorState 0 ∧
    (tsToDatetime 7 90 ((tsToDatetime 0 100 (initAnchorState 0)).2)).1 ≠
      (tsToDatetime 7 90 (initAnchorState 0)).1 := by
  constructor <;>
  norm_num [tsToDatetime, anchorRelative, initAnchorState, resetThreshold,
    AnchorState.mk.injEq]

/-- C9 (amended): reconciler state is global to the process (the
module-level anchor variables), shared by every source posting to the
same listener: a frame from one stream rewrites the single shared state,
and a subsequent frame from another stream reads it — here stream B's
output after stream A's frame is `0` instead of the `7` it produces from
a fresh reconciler — so independent streams require separate listener
instances. -/
theorem reconciler_state_shared_process_global :
    tsToDatetime 0 100 (initAnchorState 0) =
      (0, { firstRelative := false, relativeAnchorTs := 100,
            relativeAnchorReal := 0, lastRawTs := 100 }) ∧
    tsToDatetime 7 90
      { firstRelative := false, relativeAnchorTs := 100,
        relativeAnchorReal := 0, lastRawTs := 100 } =
      (0, { firstRelative := false, relativeAnchorTs := 100,
            relativeAnchorReal := 0, lastRawTs := 90 }) ∧
    tsToDatetime 7 90 (initAnchorState 0) =
      (7, { firstRelative := false, relativeAnchorTs := 90,
            relativeAnchorReal := 7, lastRawTs := 90 }) ∧
    (0 : ℚ) ≠ 7 := by
  norm_num [tsToDatetime, anchorRelative, initAnchorState, resetThreshold]

/-! ## Cache-consistency helper lemmas (claim C10) -/

theorem lookup_cons_int {β : Type} (a k : Int) (b : β) (l : List (Int × β)) :
    List.lookup a ((k, b) :: l) = if a = k then some b else List.lookup a l := by
  by_cases h : a = k
  · subst h; simp [List.lookup]
  · simp [List.lookup, beq_eq_false_iff_ne.mpr h, h]

theorem getCachedMessage_correct (db : Int → Option Message)
    (cache : List (Int × Option Message)) (canId : Int)
    (h : CacheConsistent db cache) :
    (getCachedMessage db cache canId).1 = db canId ∧
    CacheConsistent db (getCachedMessage db cache canId).2 := by
  unfold getCachedMessage
  cases hl : cache.lookup canId with
  | some v => exact ⟨h canId v hl, h⟩
  | none =>
    cases hdb : db canId with
    | some m =>
      refine ⟨rfl, ?_⟩
      intro id v hv
      rw [lookup_cons_int] at hv
      by_cases hik : id = canId
      · subst hik
        rw [if_pos rfl] at hv
        cases hv
        rw [hdb]
      · rw [if_neg hik] at hv
        exact h id v hv
    | none =>
      refine ⟨rfl, ?_⟩
      intro id v hv
      rw [lookup_cons_int] at hv
      by_cases hik : id = canId
      · subst hik
        rw [if_pos rfl] at hv
        cases hv
        rw [hdb]
      · rw [if_neg hik] at hv
        exact h id v hv

theorem getCachedMessage_hit (db db' : Int → Option Message)
    (cache : List (Int × Option Message)) (canId : Int) (v : Option Message)
    (hv : cache.lookup canId = some v) :
    getCachedMessage db cache canId = (v, cache) ∧
    getCachedMessage db' cache canId = (v, cache) := by
  constructor <;> · unfold getCachedMessage; rw [hv]

theorem cleanup_preserves (db : Int → Option Message) (cs : Caches)
    (h : CacheConsistent db cs.messageCache) :
    CacheConsistent db (cleanupCachesIfNeeded cs).messageCache := by
  unfold cleanupCachesIfNeeded
  dsimp only
  split_ifs with h1
  · intro id v hv
    simp [List.lookup] at hv
  · exact h

theorem processFrame_preserves_messageCache (db : Int → Option Message)
    (now : ℚ) (st : AnchorState) (cs : Caches) (f : Frame)
    (h : CacheConsistent db cs.messageCache) :
    CacheConsistent db (processFrame db now st cs f).2.2.2.messageCache := by
  cases hid : f.id with
  | none => simp only [processFrame, hid]; exact h
  | some idRaw =>
    cases hpc : parseCanId idRaw with
    | none => simp only [processFrame, hid, hpc]; exact h
    | some canId =>
      cases hbf : bytesFromField f.data with
      | none => simp only [processFrame, hid, hpc, hbf]; exact h
      | some data =>
        cases hts : f.timestamp with
        | none => simp only [processFrame, hid, hpc, hbf, hts]; exact h
        | some tsRaw =>
          simp only [processFrame, hid, hpc, hbf, hts]
          have hc := (getCachedMessage_correct db cs.messageCache canId h).2
          cases hm : (getCachedMessage db cs.messageCache canId).1 with
          | none => simp only [hm]; exact hc
          | some msg => simp only [hm]; exact hc

theorem ingestFrames_preserves_messageCache (db : Int → Option Message) :
    ∀ (frames : List (ℚ × Frame)) (st : AnchorState) (cs : Caches),
    CacheConsistent db cs.messageCache →
    CacheConsistent db (ingestFrames db st cs frames).2.2.2.messageCache := by
  intro frames
  induction frames with
  | nil => intro st cs h; exact h
  | cons p rest ih =>
    intro st cs h
    obtain ⟨now, f⟩ := p
    simp only [ingestFrames]
    exact ih _ _ (processFrame_preserves_messageCache db now st cs f h)

theorem ingestCan_preserves_messageCache (db : Int → Option Message)
    (st : AnchorState) (cs : Caches) (frames : List (ℚ × Frame))
    (h : CacheConsistent db cs.messageCache) :
    CacheConsistent db (ingestCan db st cs frames).2.2.2.messageCache := by
  unfold ingestCan
  dsimp only
  split_ifs with h1
  · exact ingestFrames_preserves_messageCache db frames st _ (cleanup_preserves db cs h)
  · exact ingestFrames_preserves_messageCache db frames st cs h

theorem runIngestCalls_preserves_messageCache (db : Int → Option Message) :
    ∀ (batches : List (List (ℚ × Frame))) (st : AnchorState) (cs : Caches),
    CacheConsistent db cs.messageCache →
    CacheConsistent db (runIngestCalls db st cs batches).2.messageCache := by
  intro batches
  induction batches with
  | nil => intro st cs h; exact h
  | cons b bs ih =>
    intro st cs h
    simp only [runIngestCalls]
    exact ih _ _ (ingestCan_preserves_messageCache db st cs b h)

/-- C10: the message cache is consistent with the dictionary, negative
results included: a consistent cache stays consistent through
`_get_cached_message` (whose result always equals a fresh dictionary
lookup), a cache hit — positive or negative — returns the cached value
without consulting the dictionary (the result is the same under any
dictionary), the full-clear cleanup preserves consistency, and the cache
is consistent after any sequence of ingestion calls started from a
consistent cache. -/
theorem messageCache_consistent_with_db :
    (∀ (db : Int → Option Message) (cache : List (Int × Option Message)) (canId : Int),
      CacheConsistent db cache →
      (getCachedMessage db cache canId).1 = db canId ∧
      CacheConsistent db (getCachedMessage db cache canId).2) ∧
    (∀ (db db' : Int → Option Message) (cache : List (Int × Option Message))
        (canId : Int) (v : Option Message),
      cache.lookup canId = some v →
      getCachedMessage db cache canId = (v, cache) ∧
      getCachedMessage db' cache canId = (v, cache)) ∧
    (∀ (db : Int → Option Message) (cs : Caches),
      CacheConsistent db cs.messageCache →
      CacheConsistent db (cleanupCachesIfNeeded cs).messageCache) ∧
    (∀ (db : Int → Option Message) (batches : List (List (ℚ × Frame)))
        (st : AnchorState) (cs : Caches),
      CacheConsistent db cs.messageCache →
      CacheConsistent db (runIngestCalls db st cs batches).2.messageCache) :=
  ⟨getCachedMessage_correct, getCachedMessage_hit, cleanup_preserves,
   fun db batches st cs h => runIngestCalls_preserves_messageCache db batches st cs h⟩

/-- C10 witness: the four components instantiated at the example
dictionary, an empty cache, and one concrete ingestion call. -/
theorem messageCache_consistent_with_db_witness :
    (getCachedMessage exDb [] 256).1 = exDb 256 ∧
    getCachedMessage exDb [(256, some exMessage)] 256 =
      (some exMessage, [(256, some exMessage)]) ∧
    CacheConsistent exDb (cleanupCachesIfNeeded initCaches).messageCache ∧
    CacheConsistent exDb
      (runIngestCalls exDb (initAnchorState 0) initCaches [exFrames]).2.messageCache := by
  have hemp : CacheConsistent exDb [] := fun id v hv => by simp [List.lookup] at hv
  exact ⟨(messageCache_consistent_with_db.1 exDb [] 256 hemp).1,
    (messageCache_consistent_with_db.2.1 exDb exDb [(256, some exMessage)] 256
      (some exMessage) (by simp)).1,
    messageCache_consistent_with_db.2.2.1 exDb initCaches hemp,
    messageCache_consistent_with_db.2.2.2 exDb [exFrames] (initAnchorState 0)
      initCaches hemp⟩

end DaqServer
